import Mathlib

/-!
Shallow embedding of `evennia/contrib/events/commands.py`: the `@event`
command (list / add / edit dispatch), the editor callbacks `_ev_load`,
`_ev_save`, `_ev_quit`, and the store calls they emit.

Python strings are Lean `String`s; Python dicts appear as association
lists (`alookup` is `dict.get`); the external event handler
(`evennia.contrib.events.extend`, not part of the sources) is represented
by the trace of calls made to it, plus a store transition function
modelled from the spec where its behaviour is needed.
-/

namespace EvenniaEvents

/-! ## Python string primitives used by the command module -/

/-- Valuation of `Char.ofNat` on scalar values below the surrogate range. -/
theorem toNat_ofNat_valid (n : Nat) (h : n.isValidChar) : (Char.ofNat n).toNat = n := by
  simp [Char.ofNat, h, Char.ofNatAux, Char.toNat, UInt32.toNat]

/-- Unfolding of core `Char.toLower` (ASCII model of Python `str.lower`). -/
theorem toLower_eq (c : Char) :
    c.toLower = if c.toNat ≥ 65 ∧ c.toNat ≤ 90 then Char.ofNat (c.toNat + 32) else c := rfl

theorem space_toNat : (' ' : Char).toNat = 32 := rfl

/-- Lowercasing maps the space character, and only it, to a space. -/
theorem toLower_eq_space (c : Char) : c.toLower = ' ' ↔ c = ' ' := by
  by_cases h : c.toNat ≥ 65 ∧ c.toNat ≤ 90
  · rw [toLower_eq, if_pos h]
    constructor
    · intro he
      have h2 := toNat_ofNat_valid (c.toNat + 32) (Or.inl (by omega))
      rw [he, space_toNat] at h2
      omega
    · intro he
      rw [he, space_toNat] at h
      omega
  · rw [toLower_eq, if_neg h]

theorem toLower_idem (c : Char) : c.toLower.toLower = c.toLower := by
  by_cases h : c.toNat ≥ 65 ∧ c.toNat ≤ 90
  · have hv := toNat_ofNat_valid (c.toNat + 32) (Or.inl (by omega))
    have key : c.toLower = Char.ofNat (c.toNat + 32) := by rw [toLower_eq, if_pos h]
    rw [key, toLower_eq, hv, if_neg (by omega)]
  · have key : c.toLower = c := by rw [toLower_eq, if_neg h]
    rw [key, key]

/-- Python `str.lower()` on the character list of a string (ASCII letters). -/
def pyLower (s : List Char) : List Char := s.map Char.toLower

/-- `commands.py` line 131: `rhs.partition(" ")` keeps the text before the
first space character (the whole string when no space occurs). -/
def beforeSpace (s : List Char) : List Char := s.takeWhile (· != ' ')

/-- `commands.py` lines 130-132: the event name is the part of the
right-hand side before the first space, lowercased once. -/
def eventNameOf (rhs : String) : String := ⟨pyLower (beforeSpace rhs.data)⟩

/-- The fully lowercased form of a string; two strings differing only in
letter case have the same `caseFold`. -/
def caseFold (s : String) : String := ⟨pyLower s.data⟩

/-- `commands.py` line 131: the remainder after the first space is kept as
`self.parameters`, with its original case. -/
def parametersOf (rhs : String) : String := ⟨(rhs.data.dropWhile (· != ' ')).drop 1⟩

/-- Python `str.splitlines`, on character lists: lines are terminated by
LF, CR, or CR LF, and a trailing terminator does not open an empty line.
`acc` is the current line reversed; `prevCR` records that the previous
character was a CR, so that the LF of a CR LF pair is not a second
terminator. -/
def splitlinesGo : List Char → List Char → Bool → List (List Char)
  | [], acc, _ => if acc.isEmpty then [] else [acc.reverse]
  | c :: rest, acc, prevCR =>
    if c = '\n' then
      if prevCR then splitlinesGo rest acc false
      else acc.reverse :: splitlinesGo rest [] false
    else if c = '\r' then acc.reverse :: splitlinesGo rest [] true
    else splitlinesGo rest (c :: acc) false

/-- Python `str.splitlines` on strings. -/
def splitlines (s : String) : List String :=
  (splitlinesGo s.data [] false).map fun l => ⟨l⟩

/-- Decimal digit run to a natural number. -/
def digitsToNat (l : List Char) : Nat :=
  l.foldl (fun acc c => acc * 10 + (c.toNat - 48)) 0

/-- Python whitespace stripped by `int(str)`. -/
def isPySpace (c : Char) : Bool := c == ' ' || c == '\t' || c == '\n' || c == '\r'

def pyStrip (l : List Char) : List Char :=
  ((l.dropWhile isPySpace).reverse.dropWhile isPySpace).reverse

def pyDigits (l : List Char) : Option Nat :=
  if l ≠ [] ∧ l.all Char.isDigit then some (digitsToNat l) else none

/-- Python `int(str)`: optional surrounding whitespace, optional sign, one
or more decimal digits; `none` models the `ValueError` raised otherwise. -/
def pyInt (s : String) : Option Int :=
  match pyStrip s.data with
  | '+' :: rest => (pyDigits rest).map Int.ofNat
  | '-' :: rest => (pyDigits rest).map fun n => -(n : Int)
  | t => (pyDigits t).map Int.ofNat

/-- Code-point lexicographic string order, as Python compares `str` keys
in `sorted(types.items())`. -/
def lexLeChars : List Char → List Char → Bool
  | [], _ => true
  | _ :: _, [] => false
  | c :: cs, d :: ds =>
    if c.toNat < d.toNat then true
    else if d.toNat < c.toNat then false
    else lexLeChars cs ds

theorem lexLeChars_total (a b : List Char) :
    lexLeChars a b = true ∨ lexLeChars b a = true := by
  induction a generalizing b with
  | nil => left; rfl
  | cons c cs ih =>
    cases b with
    | nil => right; rfl
    | cons d ds =>
      by_cases h1 : c.toNat < d.toNat
      · left; simp [lexLeChars, h1]
      · by_cases h2 : d.toNat < c.toNat
        · right; simp [lexLeChars, h2]
        · rcases ih ds with h | h
          · left; simp [lexLeChars, h1, h2, h]
          · right; simp [lexLeChars, h1, h2, h]

theorem lexLeChars_trans (a b c : List Char) (h1 : lexLeChars a b = true)
    (h2 : lexLeChars b c = true) : lexLeChars a c = true := by
  induction a generalizing b c with
  | nil => rfl
  | cons x xs ih =>
    cases b with
    | nil => simp [lexLeChars] at h1
    | cons y ys =>
      cases c with
      | nil => simp [lexLeChars] at h2
      | cons z zs =>
        simp only [lexLeChars] at h1 h2 ⊢
        split at h1
        · rename_i hxy
          split at h2
          · rename_i hyz
            rw [if_pos (by omega)]
          · split at h2
            · simp at h2
            · rename_i hyz hzy
              rw [if_pos (by omega)]
        · split at h1
          · simp at h1
          · rename_i hxy hyx
            split at h2
            · rename_i hyz
              rw [if_pos (by omega)]
            · split at h2
              · simp at h2
              · rename_i hyz hzy
                rw [if_neg (by omega), if_neg (by omega)]
                exact ih ys zs h1 h2

/-- Ascending order on strings by code point, used for sorted listings. -/
def strLe (a b : String) : Prop := lexLeChars a.data b.data = true

instance : DecidableRel strLe := fun a b => by unfold strLe; infer_instance

/-! ## Data model -/

/-- One entry of the event-type registry: `types[name]` is a tuple whose
second component (`definition[1]`) is the description text. -/
structure TypeInfo where
  signature : String
  description : String
deriving DecidableEq

/-- One stored event binding, as the dictionaries held by the handler and
read by `list_events` / `edit_event`. -/
structure EventRec where
  code : String
  author : Option String
  createdOn : Option Nat
  updatedOn : Option Nat
  valid : Bool
deriving DecidableEq

/-- The per-object portion of the Event Store: `get_events(obj)`, a dict
from event name to the ordered list of bindings. -/
abbrev Store := List (String × List EventRec)

/-- Python `dict.get k` (first matching key, `none` when absent). -/
def alookup {α : Type} : List (String × α) → String → Option α
  | [], _ => none
  | (k, v) :: rest, key => if k = key then some v else alookup rest key

/-- Python `dict.get k default`. -/
def alookupD {α : Type} (m : List (String × α)) (key : String) (dflt : α) : α :=
  (alookup m key).getD dflt

/-- Replace the value at a key, or append the key when absent. -/
def setKey : Store → String → List EventRec → Store
  | [], name, v => [(name, v)]
  | (k, w) :: rest, name, v =>
    if k = name then (k, v) :: rest else (k, w) :: setKey rest name v

/-- One call made to the external event handler; `_ev_save` and
`CmdEvent.add_event` are the only call sites that mutate the store. -/
inductive StoreCall where
  | addEvent (obj : String) (name : String) (code : String) (author : String) (valid : Bool)
  | editEvent (obj : String) (name : String) (number : Int) (code : String)
      (author : String) (valid : Bool)
deriving DecidableEq

/-- The dictionary stored in `caller.db._event` while an editor session is
open; `_ev_save` requires the keys obj, name, number and valid. Fields the
callbacks never read (author, timestamps) are omitted. -/
structure SessionDict where
  obj : Option String := none
  name : Option String := none
  number : Option Int := none
  valid : Option Bool := none
  code : Option String := none
deriving DecidableEq

/-- Inputs of one command invocation that the sub-commands read: the
target object id, the caller key, the per-object store and registry, the
validator bit, and the external time-rendering collaborators. -/
structure Ctx where
  objId : String
  caller : String
  events : Store
  types : List (String × TypeInfo)
  isValidator : Bool
  now : Nat
  timeFormat : Int → String

/-! ## The Event Store, modelled from the spec -/

/-- Modelled from the spec: the event handler's `add_event` / `edit_event`
live in `evennia.contrib.events.extend`, which is not among the sources.
Per section 4.1 of the spec, `add_event` appends a binding with the given
code, author and valid flag (`created_on` = now, `updated_on` absent) at
the end of the list for its name, and `edit_event` replaces the code,
author and valid flag of the binding at the given index and sets
`updated_on` (leaving the store unchanged when the index is out of
range, where the real store reports `IndexOutOfRange`). -/
def applyCall (now : Nat) (store : Store) : StoreCall → Store
  | .addEvent _ name code author valid =>
    setKey store name
      (alookupD store name [] ++ [⟨code, some author, some now, none, valid⟩])
  | .editEvent _ name number code author valid =>
    let lst := alookupD store name []
    if h : 0 ≤ number ∧ number.toNat < lst.length then
      setKey store name
        (lst.set number.toNat ⟨code, some author,
          (lst.get ⟨number.toNat, h.2⟩).createdOn, some now, valid⟩)
    else store

def applyCalls (now : Nat) (store : Store) (calls : List StoreCall) : Store :=
  calls.foldl (applyCall now) store

theorem alookup_setKey (store : Store) (name : String) (v : List EventRec) :
    alookup (setKey store name v) name = some v := by
  induction store with
  | nil => simp [setKey, alookup]
  | cons p rest ih =>
    obtain ⟨k, w⟩ := p
    by_cases h : k = name
    · simp [setKey, h, alookup]
    · simp [setKey, h, alookup, ih]

/-! ## `CmdEvent.list_events` (commands.py lines 177-230) -/

/-- One row of the per-binding table (lines 192-214): 1-based ordinal,
author key or placeholder, relative update time or placeholder, and the
validity column only when the caller is a validator. -/
structure BindingRow where
  number : String
  author : String
  updated : String
  valid : Option String
deriving DecidableEq

/-- Lines 198-214: `updated_on` falls back to `created_on`; a missing
timestamp renders the placeholder; validators additionally see Yes/no. -/
def bindingRow (ctx : Ctx) (i : Nat) (e : EventRec) : BindingRow :=
  { number := toString (i + 1)
  , author := e.author.getD "|gUnknown|n"
  , updated :=
      match e.updatedOn.orElse (fun _ => e.createdOn) with
      | some t => ctx.timeFormat ((ctx.now : Int) - (t : Int))
      | none => "|gUnknown|n"
  , valid := if ctx.isValidator then some (if e.valid then "Yes" else "no") else none }

def bindingRows (ctx : Ctx) (created : List EventRec) : List BindingRow :=
  created.enum.map fun p => bindingRow ctx p.1 p.2

/-- One row of the per-type summary table (lines 219-226). -/
structure SummaryRow where
  name : String
  number : Nat
  lines : Nat
  description : String
deriving DecidableEq

/-- Line 223-224: total number of source lines over all bindings under a
name, each binding counted by `len(e["code"].splitlines())`. -/
def sumLines (l : List EventRec) : Nat :=
  (l.map fun e => (splitlines e.code).length).sum

/-- The summary row the code builds for one registry entry, with
`(splitlines description).headD ""` in place of the partial indexing
`splitlines()[0]` (the two agree whenever the description is non-empty). -/
def summaryOf (events : Store) (p : String × TypeInfo) : SummaryRow :=
  { name := p.1
  , number := (alookupD events p.1 []).length
  , lines := sumLines (alookupD events p.1 [])
  , description := (splitlines p.2.description).headD "" }

/-- Lines 221-226, iterating the sorted registry: `none` models the
uncaught `IndexError` from `infos[1].splitlines()[0]` on an empty
description. -/
def buildSummary (events : Store) : List (String × TypeInfo) → Option (List SummaryRow)
  | [] => some []
  | p :: rest =>
    match splitlines p.2.description with
    | [] => none
    | d :: _ =>
      (buildSummary events rest).map fun rows =>
        { name := p.1
        , number := (alookupD events p.1 []).length
        , lines := sumLines (alookupD events p.1 [])
        , description := d } :: rows

/-- Order used by `sorted(types.items())`: dict items compare by their
string key first (keys of one dict are distinct, so ties cannot occur). -/
def typesLe (a b : String × TypeInfo) : Prop := strLe a.1 b.1

instance : DecidableRel typesLe := fun a b => by unfold typesLe; infer_instance

instance : IsTotal (String × TypeInfo) typesLe :=
  ⟨fun a b => lexLeChars_total a.1.data b.1.data⟩

instance : IsTrans (String × TypeInfo) typesLe :=
  ⟨fun a b c => lexLeChars_trans a.1.data b.1.data c.1.data⟩

/-- Line 221: `sorted(types.items())`. -/
def sortTypes (types : List (String × TypeInfo)) : List (String × TypeInfo) :=
  List.insertionSort typesLe types

/-- Observable result of `list_events`: the not-found message (line 188),
the per-binding table, the per-type summary table, or the uncaught
`IndexError` while building a summary row. -/
inductive ListOutcome where
  | notFound (name : String)
  | table (rows : List BindingRow)
  | summary (rows : List SummaryRow)
  | crashIndexError
deriving DecidableEq

/-- `CmdEvent.list_events`, lines 177-230.  `if event_name:` is Python
truthiness, i.e. non-emptiness; `events.get(event_name)` distinguishes an
absent key (`None`, the not-found message) from a present key with an
empty list (which renders a table with no rows). -/
def list_events (ctx : Ctx) (event_name : String) : ListOutcome :=
  if event_name ≠ "" then
    match alookup ctx.events event_name with
    | none => .notFound event_name
    | some created => .table (bindingRows ctx created)
  else
    match buildSummary ctx.events (sortTypes ctx.types) with
    | none => .crashIndexError
    | some rows => .summary rows

/-! ## `CmdEvent.add_event` (commands.py lines 232-254) -/

/-- Modelled from the spec: the dictionary returned by the handler's
`add_event` (in `evennia.contrib.events.extend`, not among the sources)
and stored into `caller.db._event` at line 251.  Per spec section 4.1 the
new binding carries the code, author and valid flag it was created with,
at index equal to the prior length of the list for its name. -/
def storeAddReturn (ctx : Ctx) (name : String) : SessionDict :=
  { obj := some ctx.objId
  , name := some name
  , number := some ((alookupD ctx.events name []).length : Int)
  , valid := some false
  , code := some "" }

/-- Observable result of `CmdEvent.add_event`: either the unknown-type
message (lines 239-242, no store call, no editor), or the editor opened
after the immediate `handler.add_event(obj, event_name, "", caller,
False)` call of lines 249-250. -/
inductive AddOutcome where
  | unknownType (name : String)
  | opened (call : StoreCall) (session : SessionDict)
deriving DecidableEq

def add_event (ctx : Ctx) (event_name : String) : AddOutcome :=
  match alookup ctx.types event_name with
  | none => .unknownType event_name
  | some _definition =>
    .opened (StoreCall.addEvent ctx.objId event_name "" ctx.caller false)
      (storeAddReturn ctx event_name)

/-- Store calls emitted by `add_event`. -/
def addCalls : AddOutcome → List StoreCall
  | .unknownType _ => []
  | .opened c _ => [c]

/-! ## `CmdEvent.edit_event` (commands.py lines 256-292) -/

/-- Observable result of `edit_event`: the unknown-name message (lines
265-268), the caught ordinal failure (lines 271-278, `ValueError` from
`int()` or the failed `assert parameters >= 0`), the uncaught
`IndexError` from `events[event_name][parameters]` (not in the `except`
tuple of line 275), the uncaught `KeyError` from `types[event_name]` at
line 280, or the editor opened with the session installed (lines
285-292).  No branch of `edit_event` itself calls the store. -/
inductive EditOutcome where
  | unknownName (name : String)
  | ordNotFound (name : String)
  | crashIndexError
  | crashKeyError (name : String)
  | opened (session : SessionDict)
deriving DecidableEq

def edit_event (ctx : Ctx) (event_name parameters : String) : EditOutcome :=
  match alookup ctx.events event_name with
  | none => .unknownName event_name
  | some lst =>
    match pyInt parameters with
    | none => .ordNotFound event_name
    | some n =>
      let idx := n - 1
      if idx < 0 then .ordNotFound event_name
      else
        match lst.get? idx.toNat with
        | none => .crashIndexError
        | some ev =>
          match alookup ctx.types event_name with
          | none => .crashKeyError event_name
          | some _definition =>
            .opened
              { obj := some ctx.objId
              , name := some event_name
              , number := some idx
              , valid := some ev.valid
              , code := some ev.code }

/-- Whether an `edit_event` outcome opened the editor. -/
def opensEditor : EditOutcome → Bool
  | .opened _ => true
  | _ => false

/-- The session dictionary installed into `caller.db._event`, if any. -/
def sessionOf : EditOutcome → Option SessionDict
  | .opened s => some s
  | _ => none

/-! ## `CmdEvent.func` dispatch (commands.py lines 121-175) -/

inductive Action where
  | noHandler
  | searchFailed
  | noObj
  | list
  | add
  | edit
  | del
  | accept
  | invalidSwitch
deriving DecidableEq

/-- The switch dispatch of `func`: handler check (lines 134-137), object
search (lines 140-143), then the mutually exclusive switches (lines
146-175).  The accept branch requires `switch == "accept" and validator`;
without the validator bit it falls to the invalid-switch message. -/
def funcDispatch (handlerUp validator argsNonempty objFound : Bool)
    (switches : List String) : Action :=
  if handlerUp = false then .noHandler
  else if argsNonempty && !objFound then .searchFailed
  else
    let objSet := argsNonempty && objFound
    let switch := switches.headD ""
    if switch = "" then (if objSet then .list else .noObj)
    else if switch = "add" then (if objSet then .add else .noObj)
    else if switch = "edit" then (if objSet then .edit else .noObj)
    else if switch = "del" then (if objSet then .del else .noObj)
    else if switch = "accept" ∧ validator = true then .accept
    else .invalidSwitch

/-- Whether a dispatch outcome runs `accept_event`. -/
def runsAccept : Action → Bool
  | .accept => true
  | _ => false

/-! ## Editor callbacks (commands.py lines 305-326) -/

/-- `_ev_load`, lines 305-306: `caller.db._event and
caller.db._event.get("code", "") or ""`. -/
def ev_load (event : Option SessionDict) : String :=
  match event with
  | none => ""
  | some s => s.code.getD ""

/-- Result of `_ev_save`: the returned Boolean, the store calls made, and
the messages sent to the caller. -/
structure SaveResult where
  success : Bool
  calls : List StoreCall
  msgs : List String
deriving DecidableEq

/-- `_ev_save`, lines 308-322.  `hasBypass` is the value of the lock check
of lines 310-312 (`perm(WITHOUT_VALIDATION) or
perm(events_without_validation)`) at the moment of this save.  The guard
of lines 315-318 requires a running handler, a truthy session dictionary,
and the keys obj, name, number and valid; otherwise it messages the
caller and returns `False` without touching the store.  On the main path
the sole store call is `edit_event` with the session's number and
`valid=autovalid` (lines 320-321). -/
def ev_save (handlerUp : Bool) (event : Option SessionDict) (hasBypass : Bool)
    (callerKey : String) (buf : String) : SaveResult :=
  match handlerUp, event with
  | true, some s =>
    match s.obj, s.name, s.number, s.valid with
    | some o, some n, some num, some _ =>
      { success := true
      , calls := [StoreCall.editEvent o n num buf callerKey hasBypass]
      , msgs := [] }
    | _, _, _, _ =>
      { success := false, calls := [], msgs := ["Could not save this event."] }
  | _, _ =>
    { success := false, calls := [], msgs := ["Could not save this event."] }

/-- `_ev_quit`, lines 324-326: unconditionally clears the session and
acknowledges; no store call. -/
def ev_quit (_event : Option SessionDict) : Option SessionDict × List String :=
  (none, ["Exited the code editor."])

/-! ## Supporting lemmas -/

theorem pyLower_idem (l : List Char) : pyLower (pyLower l) = pyLower l := by
  simp only [pyLower, List.map_map]
  exact List.map_congr_left fun a _ => toLower_idem a

theorem takeWhile_pyLower (s : List Char) :
    (pyLower s).takeWhile (· != ' ') = pyLower (s.takeWhile (· != ' ')) := by
  induction s with
  | nil => rfl
  | cons c cs ih =>
    simp only [pyLower, List.map_cons, List.takeWhile_cons] at *
    by_cases hc : c = ' '
    · subst hc
      have hsp : Char.toLower ' ' = ' ' := rfl
      simp [hsp]
    · have h1 : c.toLower ≠ ' ' := fun he => hc ((toLower_eq_space c).mp he)
      simp [hc, h1, ih]

/-- The value of `_ev_save`'s sole store call's valid argument, when the
save made exactly one `edit_event` call. -/
def writtenValid (r : SaveResult) : Option Bool :=
  match r.calls with
  | [StoreCall.editEvent _ _ _ _ _ v] => some v
  | _ => none

/-! ## Claims -/

/-- C10: `func` lowercases the first word of the right-hand side exactly
once (commands.py lines 130-132): two right-hand sides that agree after
lowercasing yield the same event name, and the event name is already in
lowercase form, so every later registry lookup, store lookup and session
record in the invocation operates on the lowercase form and two inputs
differing only in letter case address the same bindings. -/
theorem event_name_lowercased_once (r1 r2 : String) (h : caseFold r1 = caseFold r2) :
    eventNameOf r1 = eventNameOf r2 ∧ caseFold (eventNameOf r1) = eventNameOf r1 := by
  have hdata : pyLower r1.data = pyLower r2.data := by
    have := congrArg String.data h
    simpa [caseFold] using this
  constructor
  · show (⟨pyLower (beforeSpace r1.data)⟩ : String) = ⟨pyLower (beforeSpace r2.data)⟩
    have e1 := takeWhile_pyLower r1.data
    have e2 := takeWhile_pyLower r2.data
    unfold beforeSpace
    rw [← e1, hdata, e2]
  · show (⟨pyLower (pyLower (beforeSpace r1.data))⟩ : String)
      = ⟨pyLower (beforeSpace r1.data)⟩
    rw [pyLower_idem]

/-- Witness for C10 at the concrete inputs Open 2 and oPEN 2. -/
theorem event_name_lowercased_once_witness :
    caseFold "Open 2" = caseFold "oPEN 2" ∧
    (eventNameOf "Open 2" = eventNameOf "oPEN 2" ∧
      caseFold (eventNameOf "Open 2") = eventNameOf "Open 2") :=
  ⟨by decide, event_name_lowercased_once "Open 2" "oPEN 2" (by decide)⟩

/-- C9: the accept switch is gated on the validator bit (commands.py line
171, `elif switch == "accept" and validator`): an invocation by a
non-validator never dispatches to `accept_event`, and supplying the
accept switch as a non-validator falls through to the invalid-switch
message. -/
theorem accept_requires_validator :
    (∀ (h a o : Bool) (sw : List String),
      runsAccept (funcDispatch h false a o sw) = false) ∧
    (∀ rest : List String,
      funcDispatch true false true true ("accept" :: rest) = Action.invalidSwitch) := by
  constructor
  · intro h a o sw
    unfold funcDispatch
    split_ifs <;> simp_all [runsAccept] <;> split_ifs <;> simp_all [runsAccept]
  · intro rest
    rfl

/-- C4 (code bug): on an event name with one binding, the ordinal strings
0 and abc are caught by the `except (AssertionError, ValueError)` clause
of commands.py line 275 and report the not-found message, but the
too-large ordinal 2 raises `IndexError` at line 274
(`events[event_name][parameters]`), which the `except` tuple does not
catch: the command crashes instead of following the same control flow. -/
theorem edit_ordinal_shapes_diverge :
    edit_event
      ⟨"door", "alice", [("push", [⟨"pass", some "bob", some 10, none, true⟩])],
        [("push", ⟨"", "Push description"⟩)], false, 100, fun _ => ""⟩
      "push" "2" = EditOutcome.crashIndexError
    ∧ edit_event
      ⟨"door", "alice", [("push", [⟨"pass", some "bob", some 10, none, true⟩])],
        [("push", ⟨"", "Push description"⟩)], false, 100, fun _ => ""⟩
      "push" "0" = EditOutcome.ordNotFound "push"
    ∧ edit_event
      ⟨"door", "alice", [("push", [⟨"pass", some "bob", some 10, none, true⟩])],
        [("push", ⟨"", "Push description"⟩)], false, 100, fun _ => ""⟩
      "push" "abc" = EditOutcome.ordNotFound "push" :=
  ⟨by decide, by decide, by decide⟩

/-- C2 counterexample: a complete-looking session that merely lacks the
number key makes `_ev_save` fail with no store call at all — in
particular it does not call the store's `add_event`, contrary to the
claim that an index-less session saves through `add_event`. -/
theorem save_without_index_makes_no_call :
    ev_save true (some ⟨some "door", some "push", none, some false, some ""⟩)
      true "alice" "pass" =
      ⟨false, [], ["Could not save this event."]⟩ := by decide

/-- C2 (amended): `_ev_save` never calls the store's `add_event`.  When
the session carries obj, name, number and valid, the save makes exactly
one store call, `edit_event` with exactly the session's number; every
store call any save can make is an `edit_event` call.  A session without
a number (as the claim's brand-new-binding case supposes) fails instead
(see the counterexample); new bindings get their store record from the
`add_event` call made when the add command opens the editor. -/
theorem save_always_edits :
    (∀ (e : SessionDict) (o n : String) (num : Int) (b : Bool) (c buf : String),
      e.obj = some o → e.name = some n → e.number = some num →
      e.valid.isSome = true →
      ev_save true (some e) b c buf =
        ⟨true, [StoreCall.editEvent o n num buf c b], []⟩) ∧
    (∀ (hU : Bool) (ev : Option SessionDict) (b : Bool) (c buf : String)
        (call : StoreCall), call ∈ (ev_save hU ev b c buf).calls →
      ∃ o n num, call = StoreCall.editEvent o n num buf c b) := by
  constructor
  · intro e o n num b c buf ho hn hnum hv
    obtain ⟨ob, nm, nu, va, cd⟩ := e
    dsimp only at ho hn hnum hv
    subst ho hn hnum
    obtain ⟨v, hv'⟩ := Option.isSome_iff_exists.mp hv
    subst hv'
    rfl
  · intro hU ev b c buf call hmem
    cases hU
    · simp [ev_save] at hmem
    · cases ev with
      | none => simp [ev_save] at hmem
      | some s =>
        obtain ⟨ob, nm, nu, va, cd⟩ := s
        cases ob <;> cases nm <;> cases nu <;> cases va <;>
          simp [ev_save] at hmem <;> exact ⟨_, _, _, hmem⟩

/-- Witness for C2 (amended) at a concrete complete session. -/
theorem save_always_edits_witness :
    ev_save true (some ⟨some "door", some "push", some 0, some true, some "x"⟩)
      true "alice" "code" =
      ⟨true, [StoreCall.editEvent "door" "push" 0 "code" "alice" true], []⟩ :=
  save_always_edits.1 ⟨some "door", some "push", some 0, some true, some "x"⟩
    "door" "push" 0 true "alice" "code" rfl rfl rfl rfl

/-- C3: on every save that reaches the store, the valid flag written is
exactly the bypass-validation lock check evaluated at that save
(commands.py lines 310-312 and 321, `valid=autovalid`): it equals true
iff the saving user holds the permission at that moment, and the valid
value already recorded in the session is never read, so the flag is
independent of the binding's prior validity and of earlier saves. -/
theorem save_valid_flag_fresh :
    (∀ (e : SessionDict) (b : Bool) (c buf : String),
      e.obj.isSome = true → e.name.isSome = true → e.number.isSome = true →
      e.valid.isSome = true →
      writtenValid (ev_save true (some e) b c buf) = some b) ∧
    (∀ (e : SessionDict) (v1 v2 b : Bool) (c buf : String),
      ev_save true (some { e with valid := some v1 }) b c buf =
        ev_save true (some { e with valid := some v2 }) b c buf) := by
  constructor
  · intro e b c buf ho hn hnum hv
    obtain ⟨ob, nm, nu, va, cd⟩ := e
    dsimp only at ho hn hnum hv
    obtain ⟨o, ho'⟩ := Option.isSome_iff_exists.mp ho
    obtain ⟨n, hn'⟩ := Option.isSome_iff_exists.mp hn
    obtain ⟨num, hnum'⟩ := Option.isSome_iff_exists.mp hnum
    obtain ⟨v, hv'⟩ := Option.isSome_iff_exists.mp hv
    subst ho' hn' hnum' hv'
    rfl
  · intro e v1 v2 b c buf
    obtain ⟨ob, nm, nu, va, cd⟩ := e
    cases ob <;> cases nm <;> cases nu <;> rfl

/-- Witness for C3 at a concrete session whose recorded valid flag is
false while the saving user holds the bypass permission. -/
theorem save_valid_flag_fresh_witness :
    writtenValid (ev_save true
      (some ⟨some "door", some "push", some 0, some false, some "old"⟩)
      true "alice" "new") = some true ∧
    ev_save true (some ⟨some "door", some "push", some 0, some false, some "x"⟩)
        true "alice" "new" =
      ev_save true (some ⟨some "door", some "push", some 0, some true, some "x"⟩)
        true "alice" "new" :=
  ⟨save_valid_flag_fresh.1 ⟨some "door", some "push", some 0, some false, some "old"⟩
      true "alice" "new" rfl rfl rfl rfl,
    save_valid_flag_fresh.2 ⟨some "door", some "push", some 0, none, some "x"⟩
      false true true "alice" "new"⟩

/-- C6: when the handler is down, the session is missing, or any of the
keys obj, name, number, valid is absent, `_ev_save` returns failure,
messages the caller, and emits no store call, so the store is unchanged
(commands.py lines 313-318). -/
theorem save_incomplete_session_fails (hU : Bool) (ev : Option SessionDict)
    (b : Bool) (c buf : String)
    (h : hU = false ∨ ev = none ∨
      ∃ s, ev = some s ∧
        (s.obj = none ∨ s.name = none ∨ s.number = none ∨ s.valid = none)) :
    ev_save hU ev b c buf = ⟨false, [], ["Could not save this event."]⟩ ∧
    ∀ (now : Nat) (store : Store),
      applyCalls now store (ev_save hU ev b c buf).calls = store := by
  have hmain : ev_save hU ev b c buf = ⟨false, [], ["Could not save this event."]⟩ := by
    rcases h with h | h | ⟨s, hs, hf⟩
    · subst h
      cases ev <;> rfl
    · subst h
      cases hU <;> rfl
    · subst hs
      obtain ⟨ob, nm, nu, va, cd⟩ := s
      dsimp only at hf
      cases hU
      · rfl
      · cases ob <;> cases nm <;> cases nu <;> cases va <;>
          first
            | rfl
            | (exfalso; rcases hf with hf | hf | hf | hf <;> simp at hf)
  refine ⟨hmain, fun now store => ?_⟩
  rw [hmain]
  rfl

/-- Witness for C6: the handler is up but no session dictionary exists. -/
theorem save_incomplete_session_fails_witness :
    ev_save true none true "alice" "code" =
      ⟨false, [], ["Could not save this event."]⟩ ∧
    applyCalls 7 [] (ev_save true none true "alice" "code").calls = [] :=
  ⟨(save_incomplete_session_fails true none true "alice" "code"
      (Or.inr (Or.inl rfl))).1,
    (save_incomplete_session_fails true none true "alice" "code"
      (Or.inr (Or.inl rfl))).2 7 []⟩

/-- Concrete invocation context: object door, caller alice, an empty
store, and the single registered event type open. -/
def ctxAddDoor : Ctx :=
  { objId := "door", caller := "alice", events := []
  , types := [("open", ⟨"", "Open description"⟩)]
  , isValidator := false, now := 100, timeFormat := fun _ => "" }

/-- C1 counterexample: issuing the add command for the registered type
open immediately emits a store `add_event` call (commands.py lines
249-250), before any save: the store, empty beforehand, then holds a
binding with empty code — a persisted record exists for the binding being
authored as soon as the editor opens. -/
theorem add_writes_before_first_save :
    addCalls (add_event ctxAddDoor "open") =
      [StoreCall.addEvent "door" "open" "" "alice" false]
    ∧ ctxAddDoor.events = []
    ∧ applyCalls 100 ctxAddDoor.events (addCalls (add_event ctxAddDoor "open")) =
      [("open", [⟨"", some "alice", some 100, none, false⟩])] :=
  ⟨by decide, rfl, by decide⟩

/-- C1 (amended): draft text typed in the editor does live only in the
session until a save, but the add command itself is a store write: when
the event name is registered it immediately calls the store's
`add_event` with empty code and valid false, so the store holds an
empty-code record for the binding from the moment the editor opens; when
the name is not registered nothing is written. -/
theorem add_persists_empty_binding (ctx : Ctx) (name : String) :
    (alookup ctx.types name = none → addCalls (add_event ctx name) = []) ∧
    (∀ info, alookup ctx.types name = some info →
      addCalls (add_event ctx name) =
        [StoreCall.addEvent ctx.objId name "" ctx.caller false] ∧
      alookupD (applyCalls ctx.now ctx.events (addCalls (add_event ctx name)))
          name [] =
        alookupD ctx.events name [] ++
          [⟨"", some ctx.caller, some ctx.now, none, false⟩]) := by
  constructor
  · intro h
    simp [add_event, h, addCalls]
  · intro info h
    constructor
    · simp [add_event, h, addCalls]
    · simp only [add_event, h, addCalls, applyCalls, List.foldl_cons,
        List.foldl_nil, applyCall]
      rw [alookupD, alookup_setKey]
      rfl

/-- Witness for C1 (amended) at the concrete context with type open. -/
theorem add_persists_empty_binding_witness :
    addCalls (add_event ctxAddDoor "open") =
      [StoreCall.addEvent "door" "open" "" "alice" false] ∧
    alookupD (applyCalls 100 ctxAddDoor.events (addCalls (add_event ctxAddDoor "open")))
        "open" [] =
      alookupD ctxAddDoor.events "open" [] ++
        [⟨"", some "alice", some 100, none, false⟩] :=
  (add_persists_empty_binding ctxAddDoor "open").2 ⟨"", "Open description"⟩ rfl

/-- Concrete invocation context whose store maps the name open to an
empty binding list. -/
def ctxEmptyOpen : Ctx :=
  { objId := "door", caller := "alice", events := [("open", [])]
  , types := [("open", ⟨"", "Open description"⟩)]
  , isValidator := false, now := 0, timeFormat := fun _ => "" }

/-- C5 counterexample: a name present in the store with zero bindings
renders an (empty) table, not the not-found report — `events.get` at
commands.py line 186 returns the empty list, which is not `None`, so the
not-found branch of line 187 is skipped. -/
theorem empty_list_renders_table :
    list_events ctxEmptyOpen "open" = ListOutcome.table [] := by decide

/-- C5 (amended): for a non-empty event name, the listing reports
not-found exactly when the name is absent from the store's mapping; a
present name — even one with zero bindings — renders the table with one
row per binding. -/
theorem listing_not_found_iff_absent (ctx : Ctx) (name : String) (hne : name ≠ "") :
    (alookup ctx.events name = none → list_events ctx name = .notFound name) ∧
    (∀ lst, alookup ctx.events name = some lst →
      list_events ctx name = .table (bindingRows ctx lst) ∧
      (bindingRows ctx lst).length = lst.length) := by
  constructor
  · intro h
    simp [list_events, hne, h]
  · intro lst h
    refine ⟨by simp [list_events, hne, h], ?_⟩
    simp [bindingRows]

/-- Witness for C5 (amended) at the name open with an empty binding
list. -/
theorem listing_not_found_iff_absent_witness :
    list_events ctxEmptyOpen "open" = .table (bindingRows ctxEmptyOpen []) ∧
    (bindingRows ctxEmptyOpen []).length = ([] : List EventRec).length :=
  (listing_not_found_iff_absent ctxEmptyOpen "open" (by decide)).2 [] rfl

theorem buildSummary_eq (events : Store) (l : List (String × TypeInfo))
    (h : ∀ p ∈ l, splitlines p.2.description ≠ []) :
    buildSummary events l = some (l.map (summaryOf events)) := by
  induction l with
  | nil => rfl
  | cons p rest ih =>
    have hp := h p (List.mem_cons_self p rest)
    cases hd : splitlines p.2.description with
    | nil => exact absurd hd hp
    | cons d ds =>
      have ihr := ih fun q hq => h q (List.mem_cons_of_mem _ hq)
      simp [buildSummary, hd, ihr, summaryOf]

/-- C7: the no-name listing renders exactly one summary row per
registered event type, in ascending code-point order of the type names
(commands.py lines 218-230): the rows are a permutation of one
`summaryOf` row per registry entry — carrying the type name, the count
of bindings stored under it (0 when absent), the summed
`splitlines`-line count of their code, and the first description line —
and the row names are sorted and distinct.  The hypotheses state that
the registry is a dict (distinct keys) and that every description has a
first line (the code indexes `splitlines()[0]` unconditionally). -/
theorem listing_summary_rows (ctx : Ctx)
    (hnodup : (ctx.types.map Prod.fst).Nodup)
    (hdesc : ∀ p ∈ ctx.types, splitlines p.2.description ≠ []) :
    ∃ rows, list_events ctx "" = ListOutcome.summary rows
      ∧ rows.length = ctx.types.length
      ∧ rows.Perm (ctx.types.map (summaryOf ctx.events))
      ∧ List.Sorted strLe (rows.map SummaryRow.name)
      ∧ (rows.map SummaryRow.name).Nodup := by
  have hperm : (sortTypes ctx.types).Perm ctx.types :=
    List.perm_insertionSort typesLe ctx.types
  have hmap : ((sortTypes ctx.types).map (summaryOf ctx.events)).map SummaryRow.name
      = (sortTypes ctx.types).map Prod.fst := by
    rw [List.map_map]
    rfl
  refine ⟨(sortTypes ctx.types).map (summaryOf ctx.events), ?_, ?_, ?_, ?_, ?_⟩
  · have hs : ∀ p ∈ sortTypes ctx.types, splitlines p.2.description ≠ [] := by
      intro p hp
      exact hdesc p (hperm.mem_iff.mp hp)
    simp [list_events, buildSummary_eq ctx.events _ hs]
  · rw [List.length_map]
    exact hperm.length_eq
  · exact hperm.map (summaryOf ctx.events)
  · rw [hmap]
    exact List.Pairwise.map Prod.fst (fun a b hab => hab)
      (List.sorted_insertionSort typesLe ctx.types)
  · rw [hmap]
    exact ((hperm.map Prod.fst).nodup_iff).mpr hnodup

/-- Concrete invocation context with two registered types given in
unsorted order and one binding of two code lines under the name b. -/
def ctxTwoTypes : Ctx :=
  { objId := "door", caller := "alice"
  , events := [("b", [⟨"x\ny", some "bob", some 1, none, true⟩])]
  , types := [("b", ⟨"", "B desc"⟩), ("a", ⟨"", "A desc\nrest"⟩)]
  , isValidator := false, now := 0, timeFormat := fun _ => "" }

/-- Witness for C7 at the two-type context. -/
theorem listing_summary_rows_witness :
    ((ctxTwoTypes.types.map Prod.fst).Nodup ∧
      ∀ p ∈ ctxTwoTypes.types, splitlines p.2.description ≠ []) ∧
    (∃ rows, list_events ctxTwoTypes "" = ListOutcome.summary rows
      ∧ rows.length = ctxTwoTypes.types.length
      ∧ rows.Perm (ctxTwoTypes.types.map (summaryOf ctxTwoTypes.events))
      ∧ List.Sorted strLe (rows.map SummaryRow.name)
      ∧ (rows.map SummaryRow.name).Nodup) :=
  ⟨⟨by decide, by decide⟩, listing_summary_rows ctxTwoTypes (by decide) (by decide)⟩

/-- C8: when the ordinal resolves to an existing binding whose event name
is no longer in the registry for the object's class, the unconditional
`types[event_name]` lookup of commands.py line 280 raises an uncaught
`KeyError` after the ordinal check and before `caller.db._event` is
assigned (line 289): no editor session opens and no session state is
installed. -/
theorem orphaned_edit_crashes (ctx : Ctx) (name params : String)
    (lst : List EventRec) (n : Int) (ev : EventRec)
    (hev : alookup ctx.events name = some lst)
    (hparse : pyInt params = some n)
    (hpos : 1 ≤ n)
    (hget : lst.get? (n - 1).toNat = some ev)
    (htype : alookup ctx.types name = none) :
    edit_event ctx name params = EditOutcome.crashKeyError name
    ∧ opensEditor (edit_event ctx name params) = false
    ∧ sessionOf (edit_event ctx name params) = none := by
  have hmain : edit_event ctx name params = EditOutcome.crashKeyError name := by
    simp only [edit_event, hev, hparse]
    rw [if_neg (by omega : ¬(n - 1 < (0 : Int)))]
    simp only [hget, htype]
  exact ⟨hmain, by rw [hmain]; rfl, by rw [hmain]; rfl⟩

/-- Concrete invocation context with a stored binding under the name
gone, which is absent from the (empty) registry. -/
def ctxOrphan : Ctx :=
  { objId := "door", caller := "alice"
  , events := [("gone", [⟨"pass", some "bob", some 1, none, true⟩])]
  , types := [], isValidator := false, now := 0, timeFormat := fun _ => "" }

/-- Witness for C8 at the orphaned binding, ordinal 1. -/
theorem orphaned_edit_crashes_witness :
    edit_event ctxOrphan "gone" "1" = EditOutcome.crashKeyError "gone"
    ∧ opensEditor (edit_event ctxOrphan "gone" "1") = false
    ∧ sessionOf (edit_event ctxOrphan "gone" "1") = none :=
  orphaned_edit_crashes ctxOrphan "gone" "1"
    [⟨"pass", some "bob", some 1, none, true⟩] 1
    ⟨"pass", some "bob", some 1, none, true⟩
    (by decide) (by decide) (by decide) (by decide) (by decide)

end EvenniaEvents
